import Mathlib

/-!
Verification of the swarm integration-branch lifecycle from
`internal/swarm/integration.go` of the gastown repository.

The Go code shells out to git; we embed it shallowly.  A run of the
controller is modelled against an oracle `GitExec` that maps the index of
the command being issued (how many external commands ran before it) and
the command's argument list to the captured result (stdout, stderr, and
an optional nonzero-exit message).  Each operation threads an explicit
`GoState` recording the ordered trace of issued commands, the sleeps
performed by the retry loop, and the lock acquire/release events, so that
claims about "which commands were attempted" and "lock held for the whole
operation" are statable.  Go `error` values are modelled by `GoError`:
either a structured `SwarmGitError`, a wrapping (as built by
`fmt.Errorf` with `%w`), or a plain opaque error.
-/

/-- The character U+0027, used inside git error messages. -/
def apos : String := String.singleton (Char.ofNat 39)

/-- Raw result of executing one external command: captured stdout and
stderr, and `exitErr = some msg` when the process exited nonzero. -/
structure CmdResult where
  stdout : String
  stderr : String
  exitErr : Option String
deriving Repr, DecidableEq

/-- Oracle for external command execution: the first argument is the
number of commands issued before this one, the second the argument list
(after the implicit `git`). -/
def GitExec : Type := Nat → List String → CmdResult

/-- Mirrors the Go struct `SwarmGitError`: command name, trimmed raw
stdout/stderr, and the underlying execution failure (its message). -/
structure SwarmGitError where
  Command : String
  Stdout : String
  Stderr : String
  Err : String
deriving Repr, DecidableEq

/-- Go `error` values as they arise in this package: a `*SwarmGitError`,
a `fmt.Errorf("...: %w", err)` wrapping, or some other opaque error. -/
inductive GoError where
  | gitErr (e : SwarmGitError)
  | wrap (msg : String) (inner : GoError)
  | plain (msg : String)
deriving Repr, DecidableEq

/-- `errors.New("branch already exists")`. -/
def ErrBranchExists : GoError := .plain "branch already exists"

/-- `errors.New("branch not found")`. -/
def ErrBranchNotFound : GoError := .plain "branch not found"

/-- The `Error()` method: `SwarmGitError` renders as `command: stderr`
(or `command: err` when stderr is empty); a wrap prefixes its message. -/
def GoError.message : GoError → String
  | .gitErr e => if e.Stderr ≠ "" then e.Command ++ ": " ++ e.Stderr
                 else e.Command ++ ": " ++ e.Err
  | .wrap msg inner => msg ++ ": " ++ inner.message
  | .plain msg => msg

/-- `errors.As(err, &gitErr)` for target type `*SwarmGitError`:
unwraps through `%w` wrappings. -/
def asSwarmGitError : GoError → Option SwarmGitError
  | .gitErr e => some e
  | .wrap _ inner => asSwarmGitError inner
  | .plain _ => none

/-- `pat` occurs as a contiguous infix of `s`. -/
def listIsInfixOf (pat : List Char) : List Char → Bool
  | [] => pat.isEmpty
  | c :: rest => pat.isPrefixOf (c :: rest) || listIsInfixOf pat rest

/-- `strings.Contains s pattern`. -/
def strContains (s pat : String) : Bool :=
  listIsInfixOf pat.toList s.toList

/-- `strings.ToLower`, modelled character-wise over the string data. -/
def stringsToLower (s : String) : String :=
  String.mk (s.data.map Char.toLower)

/-- `strings.TrimSpace`, modelled over the string data: drop whitespace
from both ends. -/
def stringsTrimSpace (s : String) : String :=
  String.mk (((s.data.dropWhile Char.isWhitespace).reverse.dropWhile
    Char.isWhitespace).reverse)

/-- Split a character list at every occurrence of `sep` (the semantics of
`strings.Split` with a one-character separator). -/
def splitChar (sep : Char) : List Char → List (List Char)
  | [] => [[]]
  | c :: rest =>
    if c = sep then [] :: splitChar sep rest
    else
      match splitChar sep rest with
      | [] => [[c]]
      | g :: gs => (c :: g) :: gs

/-- `strings.Split s "\n"`. -/
def stringsSplitNewline (s : String) : List String :=
  (splitChar (Char.ofNat 10) s.data).map String.mk

/-- The permanent-failure substrings checked by `isTransientFetchError`. -/
def permanentPatterns : List String :=
  ["couldn" ++ apos ++ "t find remote ref",
   "not found",
   "does not appear to be a git repository",
   "permission denied",
   "authentication failed"]

/-- `isTransientFetchError` from the source: `nil` is not transient; a
non-`SwarmGitError` is transient; a `SwarmGitError` is not transient
exactly when its lowercased stderr contains a permanent pattern. -/
def isTransientFetchError : Option GoError → Bool
  | none => false
  | some err =>
    match asSwarmGitError err with
    | none => true
    | some gitErr =>
      let stderr := stringsToLower gitErr.Stderr
      !(permanentPatterns.any fun pat => strContains stderr pat)

/-- `GetWorkerBranch` from the source: `fmt.Sprintf("%s/%s/%s", ...)`. -/
def GetWorkerBranch (swarmID worker taskID : String) : String :=
  swarmID ++ "/" ++ worker ++ "/" ++ taskID

/-- One lock-file event: `lockSwarm` acquiring, or the deferred
`Unlock` releasing, the per-swarm lock. -/
inductive LockEvent where
  | acquire (sid : String)
  | release (sid : String)
deriving Repr, DecidableEq

/-- Observable state threaded through a controller operation: the
ordered trace of issued git commands, the sleeps of the retry loop, and
the lock events. -/
structure GoState where
  trace : List (List String)
  sleeps : List Nat
  locks : List LockEvent
deriving Repr, DecidableEq

/-- The state at the start of an operation: nothing observed yet. -/
def initState : GoState := ⟨[], [], []⟩

/-- The command-name computation of `gitRun`: the first argument not
starting with `-`, falling back to the first argument. -/
def commandName (args : List String) : String :=
  let cmd := (args.find? fun a => !("-".isPrefixOf a)).getD ""
  if cmd = "" then args.headD "" else cmd

/-- Issue one external command: query the oracle at the current position
and append the command to the trace. -/
def execCmd (env : GitExec) (args : List String) (s : GoState) :
    CmdResult × GoState :=
  (env s.trace.length args, { s with trace := s.trace ++ [args] })

/-- The `SwarmGitError` value `gitRun` builds from a nonzero-exit
result: the command name and the trimmed raw output. -/
def gitRunError (args : List String) (r : CmdResult) (msg : String) : GoError :=
  .gitErr { Command := commandName args,
            Stdout := stringsTrimSpace r.stdout,
            Stderr := stringsTrimSpace r.stderr,
            Err := msg }

/-- `gitRun` from the source: on nonzero exit, return a `SwarmGitError`
carrying the command name and the trimmed raw output. -/
def gitRun (env : GitExec) (args : List String) (s : GoState) :
    Option GoError × GoState :=
  let (r, s1) := execCmd env args s
  ((match r.exitErr with
    | none => none
    | some msg => some (gitRunError args r msg)), s1)

/-- `branchExists` from the source: `show-ref --verify --quiet` succeeds. -/
def branchExists (env : GitExec) (branch : String) (s : GoState) :
    Bool × GoState :=
  let (e, s1) := gitRun env
    ["show-ref", "--verify", "--quiet", "refs/heads/" ++ branch] s
  (e.isNone, s1)

/-- Argument list of the `getCurrentBranch` command. -/
def revParseCmd : List String := ["rev-parse", "--abbrev-ref", "HEAD"]

/-- `getCurrentBranch` from the source: run `rev-parse --abbrev-ref
HEAD` directly (its failure is a plain exec error, not a
`SwarmGitError`) and trim the output. -/
def getCurrentBranch (env : GitExec) (s : GoState) :
    Except GoError String × GoState :=
  let (r, s1) := execCmd env revParseCmd s
  match r.exitErr with
  | some msg => (.error (.plain msg), s1)
  | none => (.ok (stringsTrimSpace r.stdout), s1)

/-- Argument list of the unmerged-paths listing command. -/
def diffUnmergedCmd : List String := ["diff", "--name-only", "--diff-filter=U"]

/-- The success value of `getConflictingFiles`: trim the output, return
the empty list for empty output, else split on newlines and keep the
nonempty lines. -/
def parseConflicts (stdout : String) : List String :=
  let out := stringsTrimSpace stdout
  if out = "" then []
  else (stringsSplitNewline out).filter fun f => f ≠ ""

/-- `getConflictingFiles` from the source: run `diff --name-only
--diff-filter=U` directly (its failure is a plain exec error); on
success return the parsed conflicting-file list. -/
def getConflictingFiles (env : GitExec) (s : GoState) :
    Except GoError (List String) × GoState :=
  let (r, s1) := execCmd env diffUnmergedCmd s
  match r.exitErr with
  | some msg => (.error (.plain msg), s1)
  | none => (.ok (parseConflicts r.stdout), s1)

/-- `fetchRetries` from the source. -/
def fetchRetries : Nat := 3

/-- `fetchRetryDelay` from the source: `2 * time.Second`, in
nanoseconds (a Go `time.Duration` counts nanoseconds). -/
def fetchRetryDelay : Nat := 2000000000

/-- The loop body of `fetchWithRetry`: `fuel` is the number of loop
iterations left (`fetchRetries - i`), `i` the current attempt index,
and the third argument the `lastErr` variable. -/
def fetchLoop (env : GitExec) (remote branch : String) :
    Nat → Nat → Option GoError → GoState → Option GoError × GoState
  | 0, _, lastErr, s => (lastErr, s)
  | fuel + 1, i, _, s =>
    let (e, s1) := gitRun env ["fetch", remote, branch] s
    match e with
    | none => (none, s1)
    | some err =>
      if isTransientFetchError (some err) then
        if i < fetchRetries - 1 then
          fetchLoop env remote branch fuel (i + 1) (some err)
            { s1 with sleeps := s1.sleeps ++ [fetchRetryDelay * (i + 1)] }
        else
          fetchLoop env remote branch fuel (i + 1) (some err) s1
      else (some err, s1)

/-- `fetchWithRetry` from the source. -/
def fetchWithRetry (env : GitExec) (remote branch : String) (s : GoState) :
    Option GoError × GoState :=
  fetchLoop env remote branch fetchRetries 0 none s

/-- The `lockSwarm` / deferred-`Unlock` bracket shared by the swarm
operations: on acquisition failure return that error untouched; otherwise
record the acquisition, run the body, and record the release on whatever
path the body exits. -/
def withLock (sid : String) (lockRes : Option GoError)
    (body : GoState → Option GoError × GoState) (s : GoState) :
    Option GoError × GoState :=
  match lockRes with
  | some e => (some e, s)
  | none =>
    let s1 := { s with locks := s.locks ++ [LockEvent.acquire sid] }
    let (r, s2) := body s1
    (r, { s2 with locks := s2.locks ++ [LockEvent.release sid] })

/-- A task as `CleanupBranches` reads it: its identifier and its
recorded worker branch name. -/
structure SwarmTask where
  Id : String
  Branch : String
deriving Repr, DecidableEq

/-- A swarm as the controller reads it from `LoadSwarm`. -/
structure Swarm where
  Integration : String
  BaseCommit : String
  TargetBranch : String
  Tasks : List SwarmTask
deriving Repr, DecidableEq

/-- Body of `CreateIntegrationBranch` after the lock: load the swarm,
fail with `ErrBranchExists` if the integration branch exists, else create
it from the base commit; the upstream push error is discarded. -/
def createBody (env : GitExec) (loadRes : Except GoError Swarm)
    (s : GoState) : Option GoError × GoState :=
  match loadRes with
  | .error e => (some e, s)
  | .ok swarm =>
    let branchName := swarm.Integration
    let (bex, s1) := branchExists env branchName s
    if bex then (some ErrBranchExists, s1)
    else
      let (e, s2) := gitRun env
        ["checkout", "-b", branchName, swarm.BaseCommit] s1
      match e with
      | some err => (some (.wrap "creating branch" err), s2)
      | none =>
        let (_, s3) := gitRun env ["push", "-u", "origin", branchName] s2
        (none, s3)

/-- `CreateIntegrationBranch` from the source.  `lockRes` is the outcome
of `lockSwarm swarmID` and `loadRes` the outcome of `LoadSwarm swarmID`
(both live outside this file). -/
def CreateIntegrationBranch (env : GitExec) (lockRes : Option GoError)
    (loadRes : Except GoError Swarm) (swarmID : String) (s : GoState) :
    Option GoError × GoState :=
  withLock swarmID lockRes (createBody env loadRes) s

/-- Argument list of the worker merge command, with its synthesized
commit message. -/
def mergeCmd (integ workerBranch : String) : List String :=
  ["merge", "--no-ff", "-m",
   "Merge " ++ workerBranch ++ " into " ++ integ, workerBranch]

/-- The fetch-then-merge tail of `MergeToIntegration`: best-effort fetch
of the worker branch, then the merge; on merge failure consult the
unmerged-paths listing — a successful listing with at least one path
returns the original merge error, anything else the wrapped one. -/
def mergeAttempt (env : GitExec) (integ workerBranch : String)
    (s : GoState) : Option GoError × GoState :=
  let (_, s1) := fetchWithRetry env "origin" workerBranch s
  let (e, s2) := gitRun env (mergeCmd integ workerBranch) s1
  match e with
  | none => (none, s2)
  | some err =>
    let (cf, s3) := getConflictingFiles env s2
    match cf with
    | .ok conflicts =>
      if conflicts.length > 0 then (some err, s3)
      else (some (.wrap "merging" err), s3)
    | .error _ => (some (.wrap "merging" err), s3)

/-- Body of `MergeToIntegration` after the lock: load the swarm, ensure
the integration branch is checked out, then fetch and merge. -/
def mergeBody (env : GitExec) (loadRes : Except GoError Swarm)
    (workerBranch : String) (s : GoState) : Option GoError × GoState :=
  match loadRes with
  | .error e => (some e, s)
  | .ok swarm =>
    let (cb, s1) := getCurrentBranch env s
    match cb with
    | .error e => (some (.wrap "getting current branch" e), s1)
    | .ok currentBranch =>
      if currentBranch = swarm.Integration then
        mergeAttempt env swarm.Integration workerBranch s1
      else
        let (ce, s2) := gitRun env ["checkout", swarm.Integration] s1
        match ce with
        | some e => (some (.wrap "checking out integration" e), s2)
        | none => mergeAttempt env swarm.Integration workerBranch s2

/-- `MergeToIntegration` from the source. -/
def MergeToIntegration (env : GitExec) (lockRes : Option GoError)
    (loadRes : Except GoError Swarm) (swarmID workerBranch : String)
    (s : GoState) : Option GoError × GoState :=
  withLock swarmID lockRes (mergeBody env loadRes workerBranch) s

/-- `AbortMerge` from the source: a bare `git merge --abort`, no lock,
no swarm load. -/
def AbortMerge (env : GitExec) (s : GoState) : Option GoError × GoState :=
  gitRun env ["merge", "--abort"] s

/-- Argument list of the landing merge command. -/
def landMergeCmd (swarmID integ : String) : List String :=
  ["merge", "--no-ff", "-m", "Land swarm " ++ swarmID, integ]

/-- Body of `LandToMain` after the lock: load, check out the target
branch, best-effort pull, merge the integration branch with the same
conflict branching as the worker merge, then push (fatal on failure). -/
def landBody (env : GitExec) (loadRes : Except GoError Swarm)
    (swarmID : String) (s : GoState) : Option GoError × GoState :=
  match loadRes with
  | .error e => (some e, s)
  | .ok swarm =>
    let (ce, s1) := gitRun env ["checkout", swarm.TargetBranch] s
    match ce with
    | some e => (some (.wrap ("checking out " ++ swarm.TargetBranch) e), s1)
    | none =>
      let (_, s2) := fetchWithRetry env "origin" swarm.TargetBranch s1
      let (me, s3) := gitRun env (landMergeCmd swarmID swarm.Integration) s2
      match me with
      | some err =>
        let (cf, s4) := getConflictingFiles env s3
        match cf with
        | .ok conflicts =>
          if conflicts.length > 0 then (some err, s4)
          else (some (.wrap ("merging to " ++ swarm.TargetBranch) err), s4)
        | .error _ => (some (.wrap ("merging to " ++ swarm.TargetBranch) err), s4)
      | none =>
        let (pe, s4) := gitRun env ["push", "origin", swarm.TargetBranch] s3
        match pe with
        | some e => (some (.wrap "pushing" e), s4)
        | none => (none, s4)

/-- `LandToMain` from the source. -/
def LandToMain (env : GitExec) (lockRes : Option GoError)
    (loadRes : Except GoError Swarm) (swarmID : String) (s : GoState) :
    Option GoError × GoState :=
  withLock swarmID lockRes (landBody env loadRes swarmID) s

/-- The worker-branch loop of `CleanupBranches`: for each task with a
nonempty branch name, a local then a remote delete, both discarded. -/
def deleteWorkerBranches (env : GitExec) : List SwarmTask → GoState → GoState
  | [], s => s
  | t :: rest, s =>
    if t.Branch ≠ "" then
      let (_, s1) := gitRun env ["branch", "-D", t.Branch] s
      let (_, s2) := gitRun env ["push", "origin", "--delete", t.Branch] s1
      deleteWorkerBranches env rest s2
    else deleteWorkerBranches env rest s

/-- Body of `CleanupBranches` after the lock: the local integration
delete is the one retained error; the remote integration delete and
every worker-branch delete are discarded. -/
def cleanupBody (env : GitExec) (loadRes : Except GoError Swarm)
    (s : GoState) : Option GoError × GoState :=
  match loadRes with
  | .error e => (some e, s)
  | .ok swarm =>
    let (e1, s1) := gitRun env ["branch", "-D", swarm.Integration] s
    let lastErr := e1
    let (_, s2) := gitRun env
      ["push", "origin", "--delete", swarm.Integration] s1
    let s3 := deleteWorkerBranches env swarm.Tasks s2
    (lastErr, s3)

/-- `CleanupBranches` from the source. -/
def CleanupBranches (env : GitExec) (lockRes : Option GoError)
    (loadRes : Except GoError Swarm) (swarmID : String) (s : GoState) :
    Option GoError × GoState :=
  withLock swarmID lockRes (cleanupBody env loadRes) s

/-- Whether a git command mutates repository refs or the working tree;
`show-ref` and the other read-only probes are not in the list. -/
def isMutatingGitCommand (args : List String) : Bool :=
  match args.head? with
  | some c => c ∈ ["checkout", "push", "merge", "fetch", "branch", "pull",
                   "commit", "reset", "rebase"]
  | none => false

/-- An oracle under which every branch exists: every command succeeds. -/
def envAllOk : GitExec := fun _ _ => ⟨"", "", none⟩

/-- A swarm with two tasks used by the concrete witnesses. -/
def swarmW : Swarm :=
  ⟨"swarm-1/integration", "abc123", "main",
   [⟨"t1", "swarm-1/alice/t1"⟩, ⟨"t2", ""⟩]⟩

/-- An oracle whose every command fails with a transient (network)
stderr. -/
def envAllTransient : GitExec := fun _ _ =>
  ⟨"", "fatal: unable to access repo: Could not resolve host: example.com",
   some "exit status 128"⟩

/-- An oracle whose first command fails with a transient (network)
stderr and whose later commands fail with a permanent (missing
repository) stderr. -/
def envTransientThenPermanent : GitExec := fun n _ =>
  if n = 0 then
    ⟨"", "fatal: Could not resolve host", some "exit status 128"⟩
  else
    ⟨"", "fatal: repository not found", some "exit status 128"⟩

/-- An oracle staging a conflicted worker merge: the branch probe
reports the integration branch, the merge fails, and the unmerged-paths
listing reports two files. -/
def envMergeConflict : GitExec := fun _ args =>
  if args = revParseCmd then ⟨"swarm-1/integration\n", "", none⟩
  else if args = diffUnmergedCmd then ⟨"a.txt\nb.txt\n", "", none⟩
  else if args.headD "" = "merge" then
    ⟨"", "CONFLICT (content): Merge conflict in a.txt", some "exit status 1"⟩
  else ⟨"", "", none⟩

/-- An oracle staging a landing whose merge fails and whose
unmerged-paths listing itself fails. -/
def envDiffFails : GitExec := fun _ args =>
  if args = diffUnmergedCmd then ⟨"", "fatal: bad revision", some "exit status 129"⟩
  else if args.headD "" = "merge" then
    ⟨"", "error: Entry would be overwritten by merge", some "exit status 1"⟩
  else if args.headD "" = "fetch" then
    ⟨"", "fatal: Could not resolve host", some "exit status 128"⟩
  else ⟨"", "", none⟩

/-- An operation acquires some per-swarm lock at entry: on every start
state its lock-event output begins, past the inherited events, with an
acquisition. -/
def acquiresLockAtEntry (op : GoState → Option GoError × GoState) : Prop :=
  ∃ sid, ∀ s, ∃ rest,
    ((op s).2).locks = s.locks ++ (LockEvent.acquire sid :: rest)

/-! ## Theorems -/

/-- C7: `GetWorkerBranch` is a pure function of its three arguments,
returning `"<swarmID>/<worker>/<taskID>"`; in particular
`GetWorkerBranch "sw-1" "Toast" "task-123" = "sw-1/Toast/task-123"`.
Determinism and absence of hidden state hold by construction: the
embedding of the source function is a function of exactly these three
arguments. -/
theorem GetWorkerBranch_pure :
    GetWorkerBranch "sw-1" "Toast" "task-123" = "sw-1/Toast/task-123" ∧
    ∀ swarmID worker taskID : String,
      GetWorkerBranch swarmID worker taskID =
        swarmID ++ "/" ++ worker ++ "/" ++ taskID :=
  ⟨rfl, fun _ _ _ => rfl⟩

/-- C8 counterexample: over arbitrary strings the derived branch names
do collide — distinct pairs `("a/b", "c")` and `("a", "b/c")` under the
same swarm yield the same branch name `"sw/a/b/c"`. -/
theorem GetWorkerBranch_slash_collision :
    GetWorkerBranch "sw" "a/b" "c" = GetWorkerBranch "sw" "a" "b/c" ∧
    ("a/b", "c") ≠ (("a", "b/c") : String × String) :=
  ⟨rfl, by decide⟩

/-- Splitting at the first occurrence of a separator absent from both
prefixes is unambiguous. -/
theorem sepfree_append_inj (sep : Char) :
    ∀ (w1 t1 w2 t2 : List Char), sep ∉ w1 → sep ∉ w2 →
      w1 ++ sep :: t1 = w2 ++ sep :: t2 → w1 = w2 ∧ t1 = t2 := by
  intro w1
  induction w1 with
  | nil =>
    intro t1 w2 t2 _ h2 h
    cases w2 with
    | nil => simpa using h
    | cons c cs =>
      simp only [List.nil_append, List.cons_append, List.cons.injEq] at h
      obtain ⟨rfl, -⟩ := h
      simp at h2
  | cons c cs ih =>
    intro t1 w2 t2 h1 h2 h
    cases w2 with
    | nil =>
      simp only [List.cons_append, List.nil_append, List.cons.injEq] at h
      obtain ⟨rfl, -⟩ := h
      simp at h1
    | cons d ds =>
      simp only [List.cons_append, List.cons.injEq] at h
      obtain ⟨rfl, h'⟩ := h
      simp only [List.mem_cons, not_or] at h1 h2
      obtain ⟨hw, ht⟩ := ih t1 ds t2 h1.2 h2.2 h'
      exact ⟨by rw [hw], ht⟩

/-- The character data underlying a derived worker branch name. -/
theorem getWorkerBranch_data (sid w t : String) :
    (GetWorkerBranch sid w t).data =
      sid.data ++ Char.ofNat 47 :: (w.data ++ Char.ofNat 47 :: t.data) := by
  simp [GetWorkerBranch, String.data_append]

/-- C8 (amended): for a fixed swarm identifier, worker branch names do
not collide as long as the worker names contain no `/` separator:
distinct `(worker, taskID)` pairs with slash-free workers yield distinct
branch names. -/
theorem GetWorkerBranch_inj (sid w1 t1 w2 t2 : String)
    (h1 : Char.ofNat 47 ∉ w1.data) (h2 : Char.ofNat 47 ∉ w2.data)
    (h : GetWorkerBranch sid w1 t1 = GetWorkerBranch sid w2 t2) :
    w1 = w2 ∧ t1 = t2 := by
  have hd := congrArg String.data h
  rw [getWorkerBranch_data, getWorkerBranch_data] at hd
  have hd2 := List.append_cancel_left hd
  simp only [List.cons.injEq, true_and] at hd2
  obtain ⟨hw, ht⟩ :=
    sepfree_append_inj (Char.ofNat 47) w1.data t1.data w2.data t2.data h1 h2 hd2
  exact ⟨String.ext hw, String.ext ht⟩

/-- C8 witness: the amended injectivity applied at slash-free
components. -/
theorem GetWorkerBranch_inj_witness :
    ("alice" : String) = "alice" ∧ ("task-1" : String) = "task-1" :=
  GetWorkerBranch_inj "sw-1" "alice" "task-1" "alice" "task-1"
    (by decide) (by decide) rfl

/-- C2: `isTransientFetchError` is not-transient exactly on `nil` and on
(possibly wrapped) structured git errors whose lowercased stderr
contains one of the five permanent-failure substrings; every
non-structured error is transient; plus the literal classifier table of
the specification. -/
theorem isTransientFetchError_spec :
    isTransientFetchError none = false ∧
    (∀ err : GoError,
      isTransientFetchError (some err) = false ↔
        ∃ g, asSwarmGitError err = some g ∧
          ∃ pat ∈ permanentPatterns,
            strContains (stringsToLower g.Stderr) pat = true) ∧
    (∀ err : GoError, asSwarmGitError err = none →
      isTransientFetchError (some err) = true) ∧
    (isTransientFetchError (some (.gitErr
      ⟨"fetch", "", "fatal: couldn" ++ apos ++ "t find remote ref x",
       "exit status 128"⟩)) = false ∧
     isTransientFetchError (some (.gitErr
      ⟨"fetch", "", "Permission denied (publickey).", "exit status 128"⟩)) = false ∧
     isTransientFetchError (some (.gitErr
      ⟨"fetch", "", "fatal: Authentication failed for url", "exit status 128"⟩)) = false ∧
     isTransientFetchError (some (.gitErr
      ⟨"fetch", "", "repo does not appear to be a git repository",
       "exit status 128"⟩)) = false ∧
     isTransientFetchError (some (.gitErr
      ⟨"fetch", "", "fatal: Could not resolve host", "exit status 128"⟩)) = true ∧
     isTransientFetchError (some (.gitErr
      ⟨"fetch", "", "fatal: the remote end hung up unexpectedly",
       "exit status 128"⟩)) = true ∧
     isTransientFetchError (some (.plain "some generic failure")) = true ∧
     isTransientFetchError (some (.wrap "fetching" (.gitErr
      ⟨"fetch", "", "remote: Repository not found.", "exit status 128"⟩))) = false) := by
  refine ⟨rfl, ?_, ?_, ?_⟩
  · intro err
    unfold isTransientFetchError
    cases h : asSwarmGitError err with
    | none => simp [h]
    | some g => simp [h, List.any_eq_true]
  · intro err h
    unfold isTransientFetchError
    simp [h]
  · refine ⟨by decide, by decide, by decide, by decide, by decide, by decide, rfl, by decide⟩

/-- C2 witness: the non-structured-error conjunct applied at a concrete
plain error. -/
theorem isTransientFetchError_spec_witness :
    isTransientFetchError (some (.plain "connection reset by peer")) = true :=
  isTransientFetchError_spec.2.2.1 (.plain "connection reset by peer") rfl

/-- Whatever the oracle answers, one pass of the retry loop issues at
most `fuel` further fetch commands, all identical. -/
theorem fetchLoop_trace (env : GitExec) (remote branch : String) :
    ∀ (fuel i : Nat) (le : Option GoError) (s : GoState),
      ∃ k ≤ fuel,
        (fetchLoop env remote branch fuel i le s).2.trace =
          s.trace ++ List.replicate k ["fetch", remote, branch] := by
  intro fuel
  induction fuel with
  | zero =>
    intro i le s
    exact ⟨0, Nat.le_refl 0, by simp [fetchLoop]⟩
  | succ n ih =>
    intro i le s
    cases h : (env s.trace.length ["fetch", remote, branch]).exitErr with
    | none =>
      refine ⟨1, by omega, ?_⟩
      simp [fetchLoop, gitRun, execCmd, h]
    | some msg =>
      by_cases ht : isTransientFetchError (some (gitRunError
          ["fetch", remote, branch]
          (env s.trace.length ["fetch", remote, branch]) msg)) = true
      · by_cases hi : i < fetchRetries - 1
        · obtain ⟨k, hk, htr⟩ := ih (i + 1) (some (gitRunError
            ["fetch", remote, branch]
            (env s.trace.length ["fetch", remote, branch]) msg))
            { s with trace := s.trace ++ [["fetch", remote, branch]],
                     sleeps := s.sleeps ++ [fetchRetryDelay * (i + 1)] }
          refine ⟨k + 1, by omega, ?_⟩
          simp only [fetchLoop, gitRun, execCmd, h, ht, hi, if_true] at htr ⊢
          simp only [htr, List.append_assoc, List.singleton_append,
            List.replicate_succ]
        · obtain ⟨k, hk, htr⟩ := ih (i + 1) (some (gitRunError
            ["fetch", remote, branch]
            (env s.trace.length ["fetch", remote, branch]) msg))
            { s with trace := s.trace ++ [["fetch", remote, branch]] }
          refine ⟨k + 1, by omega, ?_⟩
          simp only [fetchLoop, gitRun, execCmd, h, ht, hi, if_true,
            if_false] at htr ⊢
          simp only [htr, List.append_assoc, List.singleton_append,
            List.replicate_succ]
      · refine ⟨1, by omega, ?_⟩
        simp [fetchLoop, gitRun, execCmd, h, ht]

/-- C3: `fetchWithRetry` issues at most 3 fetch invocations; at any
attempt (after any prefix of transient failures), a successful attempt
returns success immediately — no further fetch and no further delay —
and a permanent-classified failure is returned immediately, no further
fetch and no further delay; against persistently transient failures the
fetch runs exactly 3 times, sleeps a strictly increasing delay between
consecutive attempts (base delay times attempt index) and not after the
last, and the third attempt's error is returned. -/
theorem fetchWithRetry_spec :
    (∀ (env : GitExec) (remote branch : String) (s : GoState),
      ∃ k ≤ fetchRetries,
        (fetchWithRetry env remote branch s).2.trace =
          s.trace ++ List.replicate k ["fetch", remote, branch]) ∧
    (∀ (env : GitExec) (remote branch : String) (s : GoState)
       (hmsg : Nat → String) (j : Nat), j < fetchRetries →
      (∀ i, i < j →
        (env (s.trace.length + i) ["fetch", remote, branch]).exitErr =
          some (hmsg i) ∧
        isTransientFetchError (some (gitRunError ["fetch", remote, branch]
          (env (s.trace.length + i) ["fetch", remote, branch])
          (hmsg i))) = true) →
      (env (s.trace.length + j) ["fetch", remote, branch]).exitErr = none →
      fetchWithRetry env remote branch s =
        (none,
         { s with
           trace := s.trace ++
             List.replicate (j + 1) ["fetch", remote, branch],
           sleeps := s.sleeps ++
             (List.range j).map fun i => fetchRetryDelay * (i + 1) })) ∧
    (∀ (env : GitExec) (remote branch : String) (s : GoState)
       (hmsg : Nat → String) (j : Nat), j < fetchRetries →
      (∀ i, i < j →
        (env (s.trace.length + i) ["fetch", remote, branch]).exitErr =
          some (hmsg i) ∧
        isTransientFetchError (some (gitRunError ["fetch", remote, branch]
          (env (s.trace.length + i) ["fetch", remote, branch])
          (hmsg i))) = true) →
      (env (s.trace.length + j) ["fetch", remote, branch]).exitErr =
        some (hmsg j) →
      isTransientFetchError (some (gitRunError ["fetch", remote, branch]
        (env (s.trace.length + j) ["fetch", remote, branch])
        (hmsg j))) = false →
      fetchWithRetry env remote branch s =
        (some (gitRunError ["fetch", remote, branch]
          (env (s.trace.length + j) ["fetch", remote, branch]) (hmsg j)),
         { s with
           trace := s.trace ++
             List.replicate (j + 1) ["fetch", remote, branch],
           sleeps := s.sleeps ++
             (List.range j).map fun i => fetchRetryDelay * (i + 1) })) ∧
    (∀ (env : GitExec) (remote branch : String) (s : GoState)
       (hmsg : Nat → String),
      (∀ n, (env n ["fetch", remote, branch]).exitErr = some (hmsg n)) →
      (∀ n, isTransientFetchError (some (gitRunError ["fetch", remote, branch]
        (env n ["fetch", remote, branch]) (hmsg n))) = true) →
      (fetchWithRetry env remote branch s).1 =
        some (gitRunError ["fetch", remote, branch]
          (env (s.trace.length + 2) ["fetch", remote, branch])
          (hmsg (s.trace.length + 2))) ∧
      (fetchWithRetry env remote branch s).2.trace =
        s.trace ++ List.replicate 3 ["fetch", remote, branch] ∧
      (fetchWithRetry env remote branch s).2.sleeps =
        s.sleeps ++ [fetchRetryDelay * 1, fetchRetryDelay * 2] ∧
      fetchRetryDelay * 1 < fetchRetryDelay * 2) := by
  refine ⟨?_, ?_, ?_, ?_⟩
  · intro env remote branch s
    exact fetchLoop_trace env remote branch fetchRetries 0 none s
  · intro env remote branch s hmsg j hj htri hsucc
    have hj3 : j < 3 := hj
    interval_cases j
    · simp only [Nat.add_zero] at hsucc
      simp [fetchWithRetry, fetchRetries, fetchLoop, gitRun, execCmd, hsucc]
    · have h0 := htri 0 (by omega)
      simp only [Nat.add_zero] at h0
      simp [fetchWithRetry, fetchRetries, fetchLoop, gitRun, execCmd,
        h0.1, h0.2, hsucc, List.range_succ]
    · have h0 := htri 0 (by omega)
      have h1 := htri 1 (by omega)
      simp only [Nat.add_zero] at h0
      simp [fetchWithRetry, fetchRetries, fetchLoop, gitRun, execCmd,
        h0.1, h0.2, h1.1, h1.2, hsucc, List.range_succ, Nat.add_assoc]
  · intro env remote branch s hmsg j hj htri hperm hpermclass
    have hj3 : j < 3 := hj
    interval_cases j
    · simp only [Nat.add_zero] at hperm hpermclass
      simp [fetchWithRetry, fetchRetries, fetchLoop, gitRun, execCmd,
        hperm, hpermclass]
    · have h0 := htri 0 (by omega)
      simp only [Nat.add_zero] at h0
      simp [fetchWithRetry, fetchRetries, fetchLoop, gitRun, execCmd,
        h0.1, h0.2, hperm, hpermclass, List.range_succ]
    · have h0 := htri 0 (by omega)
      have h1 := htri 1 (by omega)
      simp only [Nat.add_zero] at h0
      simp [fetchWithRetry, fetchRetries, fetchLoop, gitRun, execCmd,
        h0.1, h0.2, h1.1, h1.2, hperm, hpermclass, List.range_succ,
        Nat.add_assoc]
  · intro env remote branch s hmsg h ht
    refine ⟨?_, ?_, ?_, by simp [fetchRetryDelay]⟩ <;>
      simp [fetchWithRetry, fetchRetries, fetchLoop, gitRun, execCmd, h, ht,
        fetchRetryDelay, List.replicate, Nat.add_assoc]

/-- C4: when the integration branch already exists locally (the
`show-ref` probe succeeds), `CreateIntegrationBranch` returns
`ErrBranchExists` having issued only that read-only probe — no branch
creation, no push, no mutating command at all; otherwise it creates the
branch from the swarm's base commit, and the operation succeeds whatever
the upstream push answers. -/
theorem CreateIntegrationBranch_spec :
    (∀ (env : GitExec) (swarm : Swarm) (sid : String),
      (env 0 ["show-ref", "--verify", "--quiet",
        "refs/heads/" ++ swarm.Integration]).exitErr = none →
      CreateIntegrationBranch env none (.ok swarm) sid initState =
        (some ErrBranchExists,
         ⟨[["show-ref", "--verify", "--quiet",
            "refs/heads/" ++ swarm.Integration]],
          [], [LockEvent.acquire sid, LockEvent.release sid]⟩) ∧
      ∀ args ∈ (CreateIntegrationBranch env none (.ok swarm) sid
          initState).2.trace,
        isMutatingGitCommand args = false) ∧
    (∀ (env : GitExec) (swarm : Swarm) (sid msg : String),
      (env 0 ["show-ref", "--verify", "--quiet",
        "refs/heads/" ++ swarm.Integration]).exitErr = some msg →
      (env 1 ["checkout", "-b", swarm.Integration,
        swarm.BaseCommit]).exitErr = none →
      CreateIntegrationBranch env none (.ok swarm) sid initState =
        (none,
         ⟨[["show-ref", "--verify", "--quiet",
            "refs/heads/" ++ swarm.Integration],
           ["checkout", "-b", swarm.Integration, swarm.BaseCommit],
           ["push", "-u", "origin", swarm.Integration]],
          [], [LockEvent.acquire sid, LockEvent.release sid]⟩)) := by
  constructor
  · intro env swarm sid h
    have hA : CreateIntegrationBranch env none (.ok swarm) sid initState =
        (some ErrBranchExists,
         ⟨[["show-ref", "--verify", "--quiet",
            "refs/heads/" ++ swarm.Integration]],
          [], [LockEvent.acquire sid, LockEvent.release sid]⟩) := by
      simp [CreateIntegrationBranch, withLock, createBody, branchExists,
        gitRun, execCmd, initState, h]
    refine ⟨hA, ?_⟩
    rw [hA]
    intro args hmem
    simp only [List.mem_singleton] at hmem
    subst hmem
    simp [isMutatingGitCommand]
  · intro env swarm sid msg h0 h1
    cases h2 : (env 2 ["push", "-u", "origin", swarm.Integration]).exitErr <;>
      simp [CreateIntegrationBranch, withLock, createBody, branchExists,
        gitRun, execCmd, initState, h0, h1, h2]

/-- C4 witness: the branch-exists conjunct applied at a concrete oracle
under which the `show-ref` probe succeeds. -/
theorem CreateIntegrationBranch_spec_witness :
    CreateIntegrationBranch envAllOk none (.ok swarmW) "swarm-1" initState =
      (some ErrBranchExists,
       ⟨[["show-ref", "--verify", "--quiet",
          "refs/heads/" ++ swarmW.Integration]],
        [], [LockEvent.acquire "swarm-1", LockEvent.release "swarm-1"]⟩) ∧
    ∀ args ∈ (CreateIntegrationBranch envAllOk none (.ok swarmW) "swarm-1"
        initState).2.trace,
      isMutatingGitCommand args = false :=
  (CreateIntegrationBranch_spec.1 envAllOk swarmW "swarm-1" rfl)

/-- The worker-branch loop only appends to the trace: two deletion
commands per task with a nonempty branch, nothing for the rest. -/
theorem deleteWorkerBranches_state (env : GitExec) :
    ∀ (ts : List SwarmTask) (s : GoState),
      deleteWorkerBranches env ts s =
        { s with trace := s.trace ++ (ts.map fun t =>
            if t.Branch = "" then []
            else [["branch", "-D", t.Branch],
                  ["push", "origin", "--delete", t.Branch]]).flatten } := by
  intro ts
  induction ts with
  | nil => intro s; simp [deleteWorkerBranches]
  | cons t rest ih =>
    intro s
    by_cases hb : t.Branch = ""
    · simp [deleteWorkerBranches, hb, ih]
    · simp [deleteWorkerBranches, hb, ih, gitRun, execCmd]

/-- C5: `CleanupBranches` returns exactly the outcome of the local
integration-branch deletion — whatever every other deletion answers —
while still attempting the remote integration deletion and, for every
task with a nonempty branch, both the local and the remote worker-branch
deletion. -/
theorem CleanupBranches_spec (env : GitExec) (swarm : Swarm) (sid : String) :
    ((CleanupBranches env none (.ok swarm) sid initState).1 =
      match (env 0 ["branch", "-D", swarm.Integration]).exitErr with
      | none => none
      | some msg => some (gitRunError ["branch", "-D", swarm.Integration]
          (env 0 ["branch", "-D", swarm.Integration]) msg)) ∧
    ["push", "origin", "--delete", swarm.Integration] ∈
      (CleanupBranches env none (.ok swarm) sid initState).2.trace ∧
    ∀ t ∈ swarm.Tasks, t.Branch ≠ "" →
      ["branch", "-D", t.Branch] ∈
        (CleanupBranches env none (.ok swarm) sid initState).2.trace ∧
      ["push", "origin", "--delete", t.Branch] ∈
        (CleanupBranches env none (.ok swarm) sid initState).2.trace := by
  have hstate : CleanupBranches env none (.ok swarm) sid initState =
      ((match (env 0 ["branch", "-D", swarm.Integration]).exitErr with
        | none => none
        | some msg => some (gitRunError ["branch", "-D", swarm.Integration]
            (env 0 ["branch", "-D", swarm.Integration]) msg)),
       ⟨["branch", "-D", swarm.Integration] ::
        ["push", "origin", "--delete", swarm.Integration] ::
        (swarm.Tasks.map fun t =>
          if t.Branch = "" then []
          else [["branch", "-D", t.Branch],
                ["push", "origin", "--delete", t.Branch]]).flatten,
        [], [LockEvent.acquire sid, LockEvent.release sid]⟩) := by
    cases h : (env 0 ["branch", "-D", swarm.Integration]).exitErr <;>
      simp [CleanupBranches, withLock, cleanupBody, gitRun, execCmd,
        initState, deleteWorkerBranches_state, h]
  rw [hstate]
  refine ⟨rfl, by simp, ?_⟩
  intro t ht hb
  constructor
  · simp only [List.mem_cons]
    refine Or.inr (Or.inr (List.mem_flatten.mpr ⟨_, List.mem_map_of_mem _ ht, ?_⟩))
    simp [hb]
  · simp only [List.mem_cons]
    refine Or.inr (Or.inr (List.mem_flatten.mpr ⟨_, List.mem_map_of_mem _ ht, ?_⟩))
    simp [hb]

/-- C5 witness: the worker-deletion conjunct applied at a concrete
swarm and oracle, for its task with a nonempty branch. -/
theorem CleanupBranches_spec_witness :
    ["branch", "-D", "swarm-1/alice/t1"] ∈
      (CleanupBranches envAllOk none (.ok swarmW) "swarm-1"
        initState).2.trace ∧
    ["push", "origin", "--delete", "swarm-1/alice/t1"] ∈
      (CleanupBranches envAllOk none (.ok swarmW) "swarm-1"
        initState).2.trace :=
  (CleanupBranches_spec envAllOk swarmW "swarm-1").2.2
    ⟨"t1", "swarm-1/alice/t1"⟩ (by decide) (by decide)

/-- C10: the cleanup trace is exactly the two integration deletions
followed, task by task in order, by the local and remote worker-branch
deletions of the tasks with a nonempty recorded branch name — a task
whose branch name is empty contributes no command at all. -/
theorem CleanupBranches_skip_empty (env : GitExec) (swarm : Swarm)
    (sid : String) :
    (CleanupBranches env none (.ok swarm) sid initState).2.trace =
      ["branch", "-D", swarm.Integration] ::
      ["push", "origin", "--delete", swarm.Integration] ::
      (swarm.Tasks.map fun t =>
        if t.Branch = "" then []
        else [["branch", "-D", t.Branch],
              ["push", "origin", "--delete", t.Branch]]).flatten := by
  simp [CleanupBranches, withLock, cleanupBody, gitRun, execCmd,
    initState, deleteWorkerBranches_state]

/-- C3 witness: the persistent-transient conjunct applied at a concrete
always-failing oracle, and the permanent-stops-the-loop conjunct applied
at attempt index 1 of a concrete oracle that fails transiently once and
permanently afterwards. -/
theorem fetchWithRetry_spec_witness :
    ((fetchWithRetry envAllTransient "origin" "wb" initState).1 =
      some (gitRunError ["fetch", "origin", "wb"]
        (envAllTransient 2 ["fetch", "origin", "wb"]) "exit status 128") ∧
    (fetchWithRetry envAllTransient "origin" "wb" initState).2.trace =
      [] ++ List.replicate 3 ["fetch", "origin", "wb"] ∧
    (fetchWithRetry envAllTransient "origin" "wb" initState).2.sleeps =
      [] ++ [fetchRetryDelay * 1, fetchRetryDelay * 2] ∧
    fetchRetryDelay * 1 < fetchRetryDelay * 2) ∧
    fetchWithRetry envTransientThenPermanent "origin" "wb" initState =
      (some (gitRunError ["fetch", "origin", "wb"]
        (envTransientThenPermanent (initState.trace.length + 1)
          ["fetch", "origin", "wb"]) "exit status 128"),
       { initState with
         trace := initState.trace ++
           List.replicate (1 + 1) ["fetch", "origin", "wb"],
         sleeps := initState.sleeps ++
           (List.range 1).map fun i => fetchRetryDelay * (i + 1) }) :=
  ⟨fetchWithRetry_spec.2.2.2 envAllTransient "origin" "wb" initState
    (fun _ => "exit status 128") (fun _ => rfl)
    (fun _ => by simp only [envAllTransient]; decide),
   fetchWithRetry_spec.2.2.1 envTransientThenPermanent "origin" "wb"
    initState (fun _ => "exit status 128") 1 (by decide)
    (fun i hi => by
      have hi0 : i = 0 := by omega
      subst hi0
      exact ⟨rfl, by decide⟩)
    rfl (by decide)⟩

/-- After a failed merge, `mergeAttempt` settles the return value from
the unmerged-paths listing alone: a successful listing with at least one
path yields the original merge error, anything else the wrapped one.
The hypotheses fix the oracle's answer to the merge and listing commands
at every position, leaving every other command (notably the retried
fetches) unconstrained. -/
theorem mergeAttempt_merge_fail (env : GitExec) (integ wb : String)
    (s : GoState) (rm rd : CmdResult) (m : String)
    (hm : ∀ n, env n (mergeCmd integ wb) = rm)
    (hmfail : rm.exitErr = some m)
    (hd : ∀ n, env n diffUnmergedCmd = rd) :
    (mergeAttempt env integ wb s).1 =
      match rd.exitErr with
      | none =>
        if (parseConflicts rd.stdout).length > 0
        then some (gitRunError (mergeCmd integ wb) rm m)
        else some (.wrap "merging" (gitRunError (mergeCmd integ wb) rm m))
      | some _ => some (.wrap "merging" (gitRunError (mergeCmd integ wb) rm m)) := by
  unfold mergeAttempt
  rcases hfw : fetchWithRetry env "origin" wb s with ⟨fe, s1⟩
  simp only [gitRun, execCmd, getConflictingFiles, hm, hd, hmfail]
  cases hre : rd.exitErr with
  | none => simp [apply_ite Prod.fst]
  | some dm => simp

/-- C1: for every failed merge in `MergeToIntegration` (any oracle, any
merge stderr, any fetch behavior), if the unmerged-paths listing
succeeds and is nonempty the original merge failure is returned
unwrapped, and if it succeeds empty the failure is returned wrapped as
the generic merge error; the wrapped error's message carries the prefix
`"merging: "`.  The returned value depends on the merge response `rm`
only through the error object built from it, never through an
inspection of its text: the conclusion's branch is decided by the
listing `rd` alone. -/
theorem MergeToIntegration_conflict_detection :
    (∀ (env : GitExec) (swarm : Swarm) (sid wb : String)
       (rr rc rm rd : CmdResult) (m : String),
      (∀ n, env n revParseCmd = rr) → rr.exitErr = none →
      (∀ n, env n ["checkout", swarm.Integration] = rc) → rc.exitErr = none →
      (∀ n, env n (mergeCmd swarm.Integration wb) = rm) → rm.exitErr = some m →
      (∀ n, env n diffUnmergedCmd = rd) → rd.exitErr = none →
      (MergeToIntegration env none (.ok swarm) sid wb initState).1 =
        if (parseConflicts rd.stdout).length > 0 then
          some (gitRunError (mergeCmd swarm.Integration wb) rm m)
        else
          some (.wrap "merging"
            (gitRunError (mergeCmd swarm.Integration wb) rm m))) ∧
    (∀ e : GoError,
      (GoError.wrap "merging" e).message = "merging: " ++ e.message) := by
  constructor
  · intro env swarm sid wb rr rc rm rd m hrev hrevok hco hcook hm hmfail hd hdok
    have hbody : (MergeToIntegration env none (.ok swarm) sid wb initState).1 =
        (mergeBody env (.ok swarm) wb
          { initState with locks := [LockEvent.acquire sid] }).1 := by
      simp [MergeToIntegration, withLock, initState]
    rw [hbody]
    unfold mergeBody
    simp only [getCurrentBranch, execCmd, hrev, hrevok]
    have hma := fun s => mergeAttempt_merge_fail env swarm.Integration wb s
      rm rd m hm hmfail hd
    by_cases hcur : stringsTrimSpace rr.stdout = swarm.Integration
    · simp only [hcur, eq_self_iff_true, if_true, hma, hdok]
    · simp only [if_neg hcur, gitRun, execCmd, hco, hcook, hma, hdok]
  · intro e
    rfl

/-- C1 witness: the conflict branch applied at a concrete staged
oracle. -/
theorem MergeToIntegration_conflict_detection_witness :
    (MergeToIntegration envMergeConflict none (.ok swarmW) "swarm-1"
      "swarm-1/alice/t1" initState).1 =
      if (parseConflicts (envMergeConflict 0 diffUnmergedCmd).stdout).length > 0 then
        some (gitRunError (mergeCmd swarmW.Integration "swarm-1/alice/t1")
          (envMergeConflict 0 (mergeCmd swarmW.Integration "swarm-1/alice/t1"))
          "exit status 1")
      else
        some (.wrap "merging"
          (gitRunError (mergeCmd swarmW.Integration "swarm-1/alice/t1")
            (envMergeConflict 0 (mergeCmd swarmW.Integration "swarm-1/alice/t1"))
            "exit status 1")) :=
  MergeToIntegration_conflict_detection.1 envMergeConflict swarmW "swarm-1"
    "swarm-1/alice/t1"
    (envMergeConflict 0 revParseCmd)
    (envMergeConflict 0 ["checkout", swarmW.Integration])
    (envMergeConflict 0 (mergeCmd swarmW.Integration "swarm-1/alice/t1"))
    (envMergeConflict 0 diffUnmergedCmd)
    "exit status 1"
    (fun _ => rfl) (by simp only [envMergeConflict]; decide)
    (fun _ => rfl) (by simp only [envMergeConflict]; decide)
    (fun _ => rfl) (by simp only [envMergeConflict]; decide)
    (fun _ => rfl) (by simp only [envMergeConflict]; decide)

/-- C9: in both merge operations the unwrapped-conflict return path
requires the unmerged-paths listing itself to succeed — when, after a
failed merge, the listing command fails, `MergeToIntegration` returns
the wrapped generic `"merging"` error and `LandToMain` the wrapped
`"merging to <target>"` error, whatever the listing would have shown
and whatever the working tree holds. -/
theorem conflict_listing_failure_wraps :
    (∀ (env : GitExec) (swarm : Swarm) (sid wb : String)
       (rr rc rm rd : CmdResult) (m dm : String),
      (∀ n, env n revParseCmd = rr) → rr.exitErr = none →
      (∀ n, env n ["checkout", swarm.Integration] = rc) → rc.exitErr = none →
      (∀ n, env n (mergeCmd swarm.Integration wb) = rm) → rm.exitErr = some m →
      (∀ n, env n diffUnmergedCmd = rd) → rd.exitErr = some dm →
      (MergeToIntegration env none (.ok swarm) sid wb initState).1 =
        some (.wrap "merging"
          (gitRunError (mergeCmd swarm.Integration wb) rm m))) ∧
    (∀ (env : GitExec) (swarm : Swarm) (sid : String)
       (rco rm rd : CmdResult) (m dm : String),
      (∀ n, env n ["checkout", swarm.TargetBranch] = rco) → rco.exitErr = none →
      (∀ n, env n (landMergeCmd sid swarm.Integration) = rm) → rm.exitErr = some m →
      (∀ n, env n diffUnmergedCmd = rd) → rd.exitErr = some dm →
      (LandToMain env none (.ok swarm) sid initState).1 =
        some (.wrap ("merging to " ++ swarm.TargetBranch)
          (gitRunError (landMergeCmd sid swarm.Integration) rm m))) := by
  constructor
  · intro env swarm sid wb rr rc rm rd m dm hrev hrevok hco hcook hm hmfail hd hdfail
    have hbody : (MergeToIntegration env none (.ok swarm) sid wb initState).1 =
        (mergeBody env (.ok swarm) wb
          { initState with locks := [LockEvent.acquire sid] }).1 := by
      simp [MergeToIntegration, withLock, initState]
    rw [hbody]
    unfold mergeBody
    simp only [getCurrentBranch, execCmd, hrev, hrevok]
    have hma := fun s => mergeAttempt_merge_fail env swarm.Integration wb s
      rm rd m hm hmfail hd
    by_cases hcur : stringsTrimSpace rr.stdout = swarm.Integration
    · simp only [hcur, eq_self_iff_true, if_true, hma, hdfail]
    · simp only [if_neg hcur, gitRun, execCmd, hco, hcook, hma, hdfail]
  · intro env swarm sid rco rm rd m dm hco hcook hm hmfail hd hdfail
    have hbody : (LandToMain env none (.ok swarm) sid initState).1 =
        (landBody env (.ok swarm) sid
          { initState with locks := [LockEvent.acquire sid] }).1 := by
      simp [LandToMain, withLock, initState]
    rw [hbody]
    unfold landBody
    rcases hfw : fetchWithRetry env "origin" swarm.TargetBranch
      { trace := initState.trace ++ [["checkout", swarm.TargetBranch]],
        sleeps := initState.sleeps,
        locks := [LockEvent.acquire sid] } with ⟨fe, s2⟩
    simp only [gitRun, execCmd, getConflictingFiles, hco, hcook, hfw, hm,
      hmfail, hd, hdfail]

/-- C9 witness: the `LandToMain` conjunct applied at a concrete staged
oracle whose listing command fails. -/
theorem conflict_listing_failure_wraps_witness :
    (LandToMain envDiffFails none (.ok swarmW) "swarm-1" initState).1 =
      some (.wrap ("merging to " ++ swarmW.TargetBranch)
        (gitRunError (landMergeCmd "swarm-1" swarmW.Integration)
          (envDiffFails 0 (landMergeCmd "swarm-1" swarmW.Integration))
          "exit status 1")) :=
  conflict_listing_failure_wraps.2 envDiffFails swarmW "swarm-1"
    (envDiffFails 0 ["checkout", swarmW.TargetBranch])
    (envDiffFails 0 (landMergeCmd "swarm-1" swarmW.Integration))
    (envDiffFails 0 diffUnmergedCmd)
    "exit status 1" "exit status 129"
    (fun _ => rfl) (by simp only [envDiffFails]; decide)
    (fun _ => rfl) (by simp only [envDiffFails]; decide)
    (fun _ => rfl) (by simp only [envDiffFails]; decide)

/-- The retry loop never touches the lock events. -/
theorem locks_fetchLoop (env : GitExec) (remote branch : String) :
    ∀ (fuel i : Nat) (le : Option GoError) (s : GoState),
      ((fetchLoop env remote branch fuel i le s).2).locks = s.locks := by
  intro fuel
  induction fuel with
  | zero => intro i le s; rfl
  | succ n ih =>
    intro i le s
    cases h : (env s.trace.length ["fetch", remote, branch]).exitErr with
    | none => simp [fetchLoop, gitRun, execCmd, h]
    | some m =>
      simp only [fetchLoop, gitRun, execCmd, h]
      split
      · split
        · simp [ih]
        · simp [ih]
      · rfl

/-- `fetchWithRetry` never touches the lock events. -/
theorem locks_fetchWithRetry (env : GitExec) (remote branch : String)
    (s : GoState) :
    ((fetchWithRetry env remote branch s).2).locks = s.locks :=
  locks_fetchLoop env remote branch fetchRetries 0 none s

/-- The fetch-then-merge tail never touches the lock events. -/
theorem locks_mergeAttempt (env : GitExec) (integ wb : String) (s : GoState) :
    ((mergeAttempt env integ wb s).2).locks = s.locks := by
  unfold mergeAttempt
  rcases hfw : fetchWithRetry env "origin" wb s with ⟨fe, s1⟩
  have h1 : s1.locks = s.locks := by
    have h := locks_fetchWithRetry env "origin" wb s
    rw [hfw] at h
    exact h
  dsimp only
  cases hme : (env s1.trace.length (mergeCmd integ wb)).exitErr with
  | none => simp [gitRun, execCmd, hme, h1]
  | some m =>
    cases hdr : (env (s1.trace.length + 1) diffUnmergedCmd).exitErr with
    | none =>
      simp only [gitRun, execCmd, getConflictingFiles, hme, hdr,
        List.length_append, List.length_cons, List.length_nil]
      split <;> simp [h1]
    | some dm =>
      simp [gitRun, execCmd, getConflictingFiles, hme, hdr, h1]

/-- The body of `CreateIntegrationBranch` never touches the lock
events. -/
theorem locks_createBody (env : GitExec) (loadRes : Except GoError Swarm)
    (s : GoState) : ((createBody env loadRes s).2).locks = s.locks := by
  cases loadRes with
  | error e => rfl
  | ok swarm =>
    unfold createBody branchExists
    cases h0 : (env s.trace.length ["show-ref", "--verify", "--quiet",
        "refs/heads/" ++ swarm.Integration]).exitErr with
    | none => simp [gitRun, execCmd, h0]
    | some m =>
      cases h1 : (env (s.trace.length + 1)
          ["checkout", "-b", swarm.Integration, swarm.BaseCommit]).exitErr with
      | none => simp [gitRun, execCmd, h0, h1]
      | some m2 => simp [gitRun, execCmd, h0, h1]

/-- The body of `MergeToIntegration` never touches the lock events. -/
theorem locks_mergeBody (env : GitExec) (loadRes : Except GoError Swarm)
    (wb : String) (s : GoState) :
    ((mergeBody env loadRes wb s).2).locks = s.locks := by
  cases loadRes with
  | error e => rfl
  | ok swarm =>
    unfold mergeBody
    cases h0 : (env s.trace.length revParseCmd).exitErr with
    | some m => simp [getCurrentBranch, execCmd, h0]
    | none =>
      simp only [getCurrentBranch, execCmd, h0]
      split
      · simp [locks_mergeAttempt]
      · cases h1 : (env (s.trace.length + 1)
            ["checkout", swarm.Integration]).exitErr with
        | some m => simp [gitRun, execCmd, h1]
        | none => simp [gitRun, execCmd, h1, locks_mergeAttempt]

/-- The body of `LandToMain` never touches the lock events. -/
theorem locks_landBody (env : GitExec) (loadRes : Except GoError Swarm)
    (sid : String) (s : GoState) :
    ((landBody env loadRes sid s).2).locks = s.locks := by
  cases loadRes with
  | error e => rfl
  | ok swarm =>
    unfold landBody
    cases h0 : (env s.trace.length ["checkout", swarm.TargetBranch]).exitErr with
    | some m => simp [gitRun, execCmd, h0]
    | none =>
      simp only [gitRun, execCmd, h0]
      rcases hfw : fetchWithRetry env "origin" swarm.TargetBranch
        { s with trace := s.trace ++ [["checkout", swarm.TargetBranch]] }
        with ⟨fe, s2⟩
      have h2 : s2.locks = s.locks := by
        have h := locks_fetchWithRetry env "origin" swarm.TargetBranch
          { s with trace := s.trace ++ [["checkout", swarm.TargetBranch]] }
        rw [hfw] at h
        exact h
      dsimp only
      cases hme : (env s2.trace.length (landMergeCmd sid swarm.Integration)).exitErr with
      | none =>
        cases hpe : (env (s2.trace.length + 1)
            ["push", "origin", swarm.TargetBranch]).exitErr with
        | none => simp [gitRun, execCmd, hme, hpe, h2]
        | some m => simp [gitRun, execCmd, hme, hpe, h2]
      | some m =>
        cases hdr : (env (s2.trace.length + 1) diffUnmergedCmd).exitErr with
        | none =>
          simp only [gitRun, execCmd, getConflictingFiles, hme, hdr,
            List.length_append, List.length_cons, List.length_nil]
          split <;> simp [h2]
        | some dm =>
          simp [gitRun, execCmd, getConflictingFiles, hme, hdr, h2]

/-- The body of `CleanupBranches` never touches the lock events. -/
theorem locks_cleanupBody (env : GitExec) (loadRes : Except GoError Swarm)
    (s : GoState) : ((cleanupBody env loadRes s).2).locks = s.locks := by
  cases loadRes with
  | error e => rfl
  | ok swarm => simp [cleanupBody, gitRun, execCmd, deleteWorkerBranches_state]

/-- C6 counterexample: `AbortMerge` — listed by the claim among the
operations that take the per-swarm lock — acquires no lock at all: under
a concrete all-succeeding oracle it emits no lock event on any run. -/
theorem AbortMerge_no_lock : ¬ acquiresLockAtEntry (AbortMerge envAllOk) := by
  rintro ⟨sid, h⟩
  obtain ⟨rest, hr⟩ := h initState
  simp [AbortMerge, gitRun, execCmd, initState] at hr

/-- C6 (amended): `CreateIntegrationBranch`, `MergeToIntegration`,
`LandToMain` and `CleanupBranches` each acquire the per-swarm lock at
entry and release it at exit on every path — a failed acquisition is
returned as-is with nothing run, and on a successful acquisition every
exit path (load failure included) appends exactly an acquire/release
bracket around the body, which itself never touches the lock.
`AbortMerge` takes no lock: it is a bare passthrough to
`git merge --abort` and leaves the lock events untouched. -/
theorem lock_discipline :
    (∀ (env : GitExec) (loadRes : Except GoError Swarm) (sid wb : String)
       (s : GoState) (e : GoError),
      CreateIntegrationBranch env (some e) loadRes sid s = (some e, s) ∧
      MergeToIntegration env (some e) loadRes sid wb s = (some e, s) ∧
      LandToMain env (some e) loadRes sid s = (some e, s) ∧
      CleanupBranches env (some e) loadRes sid s = (some e, s)) ∧
    (∀ (env : GitExec) (loadRes : Except GoError Swarm) (sid wb : String)
       (s : GoState),
      ((CreateIntegrationBranch env none loadRes sid s).2).locks =
        s.locks ++ [LockEvent.acquire sid, LockEvent.release sid] ∧
      ((MergeToIntegration env none loadRes sid wb s).2).locks =
        s.locks ++ [LockEvent.acquire sid, LockEvent.release sid] ∧
      ((LandToMain env none loadRes sid s).2).locks =
        s.locks ++ [LockEvent.acquire sid, LockEvent.release sid] ∧
      ((CleanupBranches env none loadRes sid s).2).locks =
        s.locks ++ [LockEvent.acquire sid, LockEvent.release sid]) ∧
    (∀ (env : GitExec) (s : GoState),
      ((AbortMerge env s).2).locks = s.locks) := by
  refine ⟨?_, ?_, ?_⟩
  · intro env loadRes sid wb s e
    exact ⟨rfl, rfl, rfl, rfl⟩
  · intro env loadRes sid wb s
    refine ⟨?_, ?_, ?_, ?_⟩
    · simp [CreateIntegrationBranch, withLock, locks_createBody]
    · simp [MergeToIntegration, withLock, locks_mergeBody]
    · simp [LandToMain, withLock, locks_landBody]
    · simp [CleanupBranches, withLock, locks_cleanupBody]
  · intro env s
    rfl
